import Mathlib

/-!
Verification of the recommendation and popularity engine of the
movie-recommendation-system repository, against its natural-language
specification.

The Python/Django source is shallowly embedded: database tables become
lists of records, querysets become list filters, `order_by` becomes a
stable sort (the database backend returns ties between equal sort keys
in storage order, which the stored list order models), floats become
rationals (`ℚ`), and Python's `round`/`int` become explicit functions
on `ℚ`.  The relevant source files are `movies/utils.py`,
`movies/signals.py`, `movies/views.py`, `movies/serializers.py` and
`movies/schema.py`.
-/

/-! ### Python numeric primitives -/

/-- Python's `int(x)` applied to a numeric value: truncation toward
zero, i.e. the floor for non-negative arguments and the ceiling for
negative ones. -/
def pyInt (q : ℚ) : ℤ := if 0 ≤ q then ⌊q⌋ else ⌈q⌉

/-- Round-half-to-even on `ℚ`, the rounding used by Python's builtin `round`. -/
def roundHalfEven (q : ℚ) : ℤ :=
  let f := ⌊q⌋
  if q - f < 1 / 2 then f
  else if 1 / 2 < q - f then f + 1
  else if f % 2 = 0 then f else f + 1

/-- Python's `round(x, 2)`: round to two decimal places, half to even. -/
def pyRound2 (q : ℚ) : ℚ := (roundHalfEven (q * 100) : ℚ) / 100

/-! ### Data model (movies/models.py)

`Movie` carries the aggregate fields `average_rating` and `watch_count`
maintained by the signal handlers; `genres` is its many-to-many genre id
set.  `Rating` is one row per (user, movie) with an integer `score`.
`WatchHistory` is one row per (user, movie).  Identifiers are modelled
as naturals. -/

structure MovieRec where
  movieId : ℕ
  genres : List ℕ
  averageRating : ℚ
  watchCount : ℕ
deriving DecidableEq

structure RatingRec where
  userId : ℕ
  movieId : ℕ
  score : ℤ
deriving DecidableEq

structure WatchRec where
  userId : ℕ
  movieId : ℕ
deriving DecidableEq

/-- The stored state visible to the engine: the movie table, the genre
table (ids), the rating table and the watch-history table. -/
structure DB where
  movies : List MovieRec
  genres : List ℕ
  ratings : List RatingRec
  watches : List WatchRec
deriving DecidableEq

/-! ### movies/utils.py -/

/-- `calc_popularity_score` annotation formula (utils.py line 11):
`average_rating * 0.7 + watch_count * 0.3`, with no rounding. -/
def calc_popularity_score (avg : ℚ) (wc : ℕ) : ℚ :=
  avg * (7 / 10) + (wc : ℚ) * (3 / 10)

/-- The popularity score of a movie row, as annotated by
`calc_popularity_score`. -/
def popScore (m : MovieRec) : ℚ :=
  calc_popularity_score m.averageRating m.watchCount

/-- The comparison used by `order_by('-popularity_score')`: descending
popularity score.  No secondary key appears in the source. -/
def popGE (a b : MovieRec) : Prop := popScore b ≤ popScore a

instance : DecidableRel popGE :=
  fun a b => inferInstanceAs (Decidable (popScore b ≤ popScore a))

instance : IsTotal MovieRec popGE := ⟨fun a b => le_total (popScore b) (popScore a)⟩

instance : IsTrans MovieRec popGE := ⟨fun _ _ _ h₁ h₂ => le_trans h₂ h₁⟩

/-- `order_by('-popularity_score')`: sort descending by score.  The
database leaves rows with equal scores in storage order, which a stable
sort of the stored list models. -/
def orderByPopularityDesc (l : List MovieRec) : List MovieRec :=
  List.insertionSort popGE l

/-- `WatchHistory.objects.filter(user=user, movie=movie).exists()` /
the `watched_by__user=user` lookup. -/
def watchedB (db : DB) (u mid : ℕ) : Bool :=
  db.watches.any (fun w => w.userId == u && w.movieId == mid)

/-- `top_movies_for_genre(user, genre, num_to_pick)` (utils.py lines
27-40): movies of the genre, minus those watched by the user, ordered
by popularity score descending, first `num_to_pick` of them.
(`.distinct()` is a no-op here: the movie table has one row per movie.) -/
def top_movies_for_genre (db : DB) (u g n : ℕ) : List MovieRec :=
  (orderByPopularityDesc
    ((db.movies.filter (fun m => m.genres.contains g)).filter
      (fun m => !watchedB db u m.movieId))).take n

/-- A genre together with the count of the user's liked movies inside
it — the ephemeral annotation produced by `liked_genres`. -/
structure GenreCount where
  genreId : ℕ
  likedCount : ℕ
deriving DecidableEq

/-- Descending order on the liked-movie count, as in
`order_by('-liked_movies_count')`; again no secondary key. -/
def countGE (a b : GenreCount) : Prop := b.likedCount ≤ a.likedCount

instance : DecidableRel countGE :=
  fun a b => inferInstanceAs (Decidable (b.likedCount ≤ a.likedCount))

instance : IsTotal GenreCount countGE := ⟨fun a b => le_total b.likedCount a.likedCount⟩

instance : IsTrans GenreCount countGE := ⟨fun _ _ _ h₁ h₂ => le_trans h₂ h₁⟩

/-- The number of movie rows of genre `g` whose id lies in `liked`
(the `Count('movies', filter=Q(movies__in=liked_movies))` annotation). -/
def genreLikedCount (db : DB) (liked : List ℕ) (g : ℕ) : ℕ :=
  ((db.movies.filter (fun m => m.genres.contains g)).filter
    (fun m => liked.contains m.movieId)).length

/-- `liked_genres(liked_movies)` (utils.py lines 17-24): genres having
at least one liked movie, annotated with their liked-movie count and
ordered by that count descending. -/
def liked_genres (db : DB) (liked : List ℕ) : List GenreCount :=
  List.insertionSort countGE
    ((db.genres.filter (fun g => genreLikedCount db liked g != 0)).map
      (fun g => ⟨g, genreLikedCount db liked g⟩))

/-! ### movies/signals.py -/

/-- The scores of all rating rows of a movie
(`Rating.objects.filter(movie=movie)`). -/
def movieScores (db : DB) (mid : ℕ) : List ℤ :=
  (db.ratings.filter (fun r => r.movieId == mid)).map (·.score)

/-- `ratings.aggregate(average=Avg('score'))['average'] or 0`: the mean
of the scores, or 0 when there are none.  (A mean that is exactly 0 is
also mapped to 0 by `or 0`, which changes nothing.) -/
def avgScores (l : List ℤ) : ℚ :=
  if l = [] then 0 else (l.sum : ℚ) / (l.length : ℚ)

/-- The value stored by the signal handler:
`round(average_rating, 2)` of the mean over all rating rows of the
movie.  No score-range filter appears in the source. -/
def recalcAverage (db : DB) (mid : ℕ) : ℚ :=
  pyRound2 (avgScores (movieScores db mid))

/-- `recalculate_movie_average_rating` (signals.py lines 11-20):
recompute the movie's `average_rating` from all its rating rows and
persist it.  Its other side effect — invalidating the triggering user's
recommendation cache entry — is modelled in the cache section below. -/
def recalculate_movie_average_rating (db : DB) (mid : ℕ) : DB :=
  { db with
    movies := db.movies.map (fun m =>
      if m.movieId == mid then { m with averageRating := recalcAverage db mid } else m) }

/-- The `average_rating` currently stored on the movie row. -/
def storedAverage (db : DB) (mid : ℕ) : Option ℚ :=
  (db.movies.find? (fun m => m.movieId == mid)).map (·.averageRating)

/-- Formalisation of the claim that the Aggregate Maintainer skips
rating records whose score lies outside 1–5 when averaging; stated for
comparison with `recalcAverage`, which does no such filtering. -/
def recalcAverageSkippingOutOfRange (db : DB) (mid : ℕ) : ℚ :=
  pyRound2 (avgScores ((movieScores db mid).filter
    (fun s => decide (1 ≤ s) && decide (s ≤ 5))))

/-! ### movies/views.py — the `recommended` action -/

/-- `Rating.objects.filter(user=user, score__gte=3)`: the user's
liked-movie rating rows. -/
def likedRows (db : DB) (u : ℕ) : List RatingRec :=
  db.ratings.filter (fun r => r.userId == u && decide (3 ≤ r.score))

/-- `.values_list('movie', flat=True)` over the liked rows. -/
def likedMovieIds (db : DB) (u : ℕ) : List ℕ :=
  (likedRows db u).map (·.movieId)

/-- `num_to_pick = max(1, int(proportion * 20))` where
`proportion = liked_count / total` (views.py lines 299-302). -/
def numToPick (c total : ℕ) : ℕ :=
  max 1 (pyInt ((c : ℚ) / (total : ℚ) * 20)).toNat

/-- The movie ids contributed by one genre entry of the loop in
`recommended`: the ids of `top_movies_for_genre(user, genre,
num_to_pick)`. -/
def pickIdsFor (db : DB) (u total : ℕ) (gc : GenreCount) : List ℕ :=
  (top_movies_for_genre db u gc.genreId (numToPick gc.likedCount total)).map (·.movieId)

/-- The union built by the genre loop (views.py lines 296-308): movie
ids selected across all liked genres, in loop order.  Django combines
the sliced per-genre querysets into `pk__in` conditions OR-ed together,
so only the resulting id set matters for the final queryset. -/
def personalizedUnionIds (db : DB) (u : ℕ) : List ℕ :=
  (liked_genres db (likedMovieIds db u)).foldl
    (fun acc gc => acc ++ pickIdsFor db u (likedRows db u).length gc) []

/-- The personalized result (views.py line 321): the movie table
restricted to the union, re-annotated, ordered by popularity score
descending and truncated to 20. -/
def personalizedList (db : DB) (u : ℕ) : List MovieRec :=
  (orderByPopularityDesc
    (db.movies.filter (fun m => (personalizedUnionIds db u).contains m.movieId))).take 20

/-- The fallback result (views.py line 273):
`calc_popularity_score(Movie.objects).exclude(watched_by__user=user)
.order_by('-popularity_score')` — all unwatched movies, ordered by
popularity score descending, with no truncation. -/
def fallbackList (db : DB) (u : ℕ) : List MovieRec :=
  orderByPopularityDesc (db.movies.filter (fun m => !watchedB db u m.movieId))

/-- The candidate list computed by the `recommended` action (before
pagination): the fallback list when the user has no liked movies
(`if not liked_movies.exists()`), otherwise the personalized list. -/
def recommendedCandidates (db : DB) (u : ℕ) : List MovieRec :=
  if (likedRows db u).isEmpty then fallbackList db u else personalizedList db u

/-- The per-genre pick counts computed by the loop in `recommended`:
each ordered genre entry paired with its `num_to_pick`, whose
denominator is `total_liked_movies = liked_movies.count()` (views.py
line 294). -/
def genrePickPlan (db : DB) (u : ℕ) : List (ℕ × ℕ) :=
  (liked_genres db (likedMovieIds db u)).map
    (fun gc => (gc.genreId, numToPick gc.likedCount (likedRows db u).length))

/-- Formalisation of the claimed pick-count rule, whose denominator is
the sum of `liked_count` over all genre entries; stated for comparison
with `genrePickPlan`. -/
def claimedPickPlan (db : DB) (u : ℕ) : List (ℕ × ℕ) :=
  (liked_genres db (likedMovieIds db u)).map
    (fun gc => (gc.genreId,
      numToPick gc.likedCount
        (((liked_genres db (likedMovieIds db u)).map (·.likedCount)).sum)))

/-! ### movies/views.py — trending window (lines 349-357) -/

/-- The effective `days` window of the `trending` action.  `none`
models a missing or non-integer `days` query parameter (the
`except ValueError` branch); both default to 30.  The parsed value is
then replaced by 30 whenever it lies outside `[7, 30]`. -/
def trendingDays (raw : Option ℤ) : ℤ :=
  let days := raw.getD 30
  if days < 7 ∨ days > 30 then 30 else days

/-! ### movies/serializers.py and movies/schema.py -/

/-- `MovieSerializer.to_representation` (serializers.py lines 63-68):
the annotated `popularity_score` is rounded to 2 decimal places in the
output. -/
def serializedPopularityScore (avg : ℚ) (wc : ℕ) : ℚ :=
  pyRound2 (calc_popularity_score avg wc)

/-- `MovieType.resolve_popularity_score` (schema.py lines 62-63):
`round(self.average_rating * 0.7 + self.watch_count * 0.3, 2)`. -/
def resolve_popularity_score (avg : ℚ) (wc : ℕ) : ℚ :=
  pyRound2 (avg * (7 / 10) + (wc : ℚ) * (3 / 10))

/-! ### The recommendation cache (views.py lines 260-335, utils.py
lines 43-46)

The cache key is `f"recommended_movies_user_{user.user_id}"` — derived
from the user id alone — so the per-user state is a single optional
entry.  An entry stores the serialized page payload cached by
`cache.set(cache_key, data, timeout=60 * 10)` together with its expiry
instant.  Payloads are modelled by the list of serialized movie ids. -/

structure CacheEntry where
  payload : List ℕ
  expiry : ℕ
deriving DecidableEq

/-- A response body of the `recommended` endpoint: the DRF paginated
envelope `{count, next, previous, results}` produced by
`get_paginated_response`, the bare list returned on a cache hit by
`Response(cached_data)`, or the `NotFound` error raised by
`paginate_queryset` on an invalid page. -/
inductive RespBody where
  | paged (count : ℕ) (results : List ℕ)
  | bare (results : List ℕ)
  | errorNotFound
deriving DecidableEq

/-- The list of movie ids carried by a response body. -/
def resultsOf : RespBody → List ℕ
  | RespBody.paged _ l => l
  | RespBody.bare l => l
  | RespBody.errorNotFound => []

/-- DRF `PageNumberPagination` slicing: page `p` (1-based) of size `s`.
Page 1 is always valid (`allow_empty_first_page`); a later page is
valid when it starts before the end of the list; anything else raises
`NotFound`, modelled by `none`. -/
def paginate (p s : ℕ) (l : List ℕ) : Option (List ℕ) :=
  if p = 0 then none
  else if p = 1 ∨ (p - 1) * s < l.length then some ((l.drop ((p - 1) * s)).take s)
  else none

/-- The serialized ids of the candidate list computed for the user. -/
def recommendedIds (db : DB) (u : ℕ) : List ℕ :=
  (recommendedCandidates db u).map (·.movieId)

/-- The cache-miss path of the `recommended` action: recompute the
candidate list, paginate it (a `NotFound` propagates before any
`cache.set` runs), cache the page payload for 600 seconds and return
the paginated envelope. -/
def recommendedMiss (db : DB) (u p s now : ℕ) (c : Option CacheEntry) :
    RespBody × Option CacheEntry :=
  match paginate p s (recommendedIds db u) with
  | none => (RespBody.errorNotFound, c)
  | some payload =>
      (RespBody.paged (recommendedIds db u).length payload, some ⟨payload, now + 600⟩)

/-- One call of the `recommended` endpoint (views.py lines 260-335).
`cache.get` yields the entry while it has not expired, and the code
treats the value as a hit only when it is truthy (`if cached_data:`),
so an empty cached payload behaves as a miss.  A hit returns the bare
cached payload unchanged. -/
def recommendedCall (db : DB) (u p s now : ℕ) (c : Option CacheEntry) :
    RespBody × Option CacheEntry :=
  let hit : Option (List ℕ) :=
    match c with
    | some e => if now < e.expiry ∧ e.payload ≠ [] then some e.payload else none
    | none => none
  match hit with
  | some payload => (RespBody.bare payload, c)
  | none => recommendedMiss db u p s now c

/-- `invalidate_user_recommendation_cache` (utils.py lines 43-46):
`cache.delete(cache_key)` — the entry is removed whatever its state.
Both signal handlers call it for the mutating user. -/
def invalidate_user_recommendation_cache (_c : Option CacheEntry) : Option CacheEntry :=
  none

/-! ### Rating / watch-history state machine (views.py `rate`, `watch`,
`unwatch`; RatingViewSet destroy/update)

For the referential invariant "rated ⟹ watched" only the rating and
watch tables and the outcome (state, success) of each operation
matter. -/

structure LibState where
  ratings : List RatingRec
  watches : List WatchRec
deriving DecidableEq

/-- `Rating.objects.filter(user=user, movie=movie).exists()`. -/
def hasRating (s : LibState) (u m : ℕ) : Bool :=
  s.ratings.any (fun r => r.userId == u && r.movieId == m)

/-- `WatchHistory.objects.filter(user=user, movie=movie).exists()`. -/
def hasWatch (s : LibState) (u m : ℕ) : Bool :=
  s.watches.any (fun w => w.userId == u && w.movieId == m)

/-- `RatingSerializer.validate_score`: `1 <= value <= 5`. -/
def validScoreB (sc : ℤ) : Bool := decide (1 ≤ sc) && decide (sc ≤ 5)

/-- `MovieViewSet.rate` (views.py lines 107-134): reject when the user
already rated the movie; reject an invalid score; otherwise create the
rating and, when the movie is not yet watched, also create the watch
entry.  The boolean is `true` for a 201 response. -/
def rateOp (s : LibState) (u m : ℕ) (sc : ℤ) : LibState × Bool :=
  if hasRating s u m then (s, false)
  else if !validScoreB sc then (s, false)
  else
    let s1 : LibState := ⟨⟨u, m, sc⟩ :: s.ratings, s.watches⟩
    if hasWatch s1 u m then (s1, true)
    else (⟨s1.ratings, ⟨u, m⟩ :: s1.watches⟩, true)

/-- `MovieViewSet.watch` (views.py lines 137-155). -/
def watchOp (s : LibState) (u m : ℕ) : LibState × Bool :=
  if hasWatch s u m then (s, false)
  else (⟨s.ratings, ⟨u, m⟩ :: s.watches⟩, true)

/-- `MovieViewSet.unwatch` (views.py lines 158-179): 404 when the entry
does not exist; 400, with the state unchanged, while a rating for the
same (user, movie) exists; otherwise delete the (first) matching watch
entry. -/
def unwatchOp (s : LibState) (u m : ℕ) : LibState × Bool :=
  if !hasWatch s u m then (s, false)
  else if hasRating s u m then (s, false)
  else (⟨s.ratings, s.watches.eraseP (fun w => w.userId == u && w.movieId == m)⟩, true)

/-- `RatingViewSet` destroy (owner deletes their rating row). -/
def destroyRatingOp (s : LibState) (u m : ℕ) : LibState × Bool :=
  if hasRating s u m then
    (⟨s.ratings.eraseP (fun r => r.userId == u && r.movieId == m), s.watches⟩, true)
  else (s, false)

/-- `RatingViewSet` update (owner overwrites the score in place after
serializer validation). -/
def updateRatingOp (s : LibState) (u m : ℕ) (sc : ℤ) : LibState × Bool :=
  if hasRating s u m && validScoreB sc then
    (⟨s.ratings.map (fun r =>
        if r.userId == u && r.movieId == m then ⟨r.userId, r.movieId, sc⟩ else r),
      s.watches⟩, true)
  else (s, false)

/-- The mutating operations of the rating / watch-history surface. -/
inductive LibEvent where
  | rateE (u m : ℕ) (sc : ℤ)
  | watchE (u m : ℕ)
  | unwatchE (u m : ℕ)
  | destroyE (u m : ℕ)
  | updateE (u m : ℕ) (sc : ℤ)

/-- Apply one operation. -/
def applyEvent (s : LibState) : LibEvent → LibState × Bool
  | LibEvent.rateE u m sc => rateOp s u m sc
  | LibEvent.watchE u m => watchOp s u m
  | LibEvent.unwatchE u m => unwatchOp s u m
  | LibEvent.destroyE u m => destroyRatingOp s u m
  | LibEvent.updateE u m sc => updateRatingOp s u m sc

/-- States reachable from the empty database through the exposed
operations. -/
inductive Reachable : LibState → Prop
  | init : Reachable ⟨[], []⟩
  | step (s : LibState) (e : LibEvent) : Reachable s → Reachable (applyEvent s e).1

/-- The referential invariant: every rating row has a watch-history row
for the same (user, movie). -/
def ratedImpliesWatched (s : LibState) : Prop :=
  ∀ r ∈ s.ratings, hasWatch s r.userId r.movieId = true

/-- At most one rating row per (user, movie) — the database
`unique_together` constraint, maintained by the operations. -/
def ratingKeysOnce (s : LibState) : Prop :=
  s.ratings.Pairwise (fun a b => ¬(a.userId = b.userId ∧ a.movieId = b.movieId))

/-! ### Concrete states used to instantiate and to refute claims -/

/-- One movie, rated 5, 5, 4, 3 by four users (the spec's worked
example for the average). -/
def dbFourRatings : DB :=
  ⟨[⟨0, [], 0, 0⟩], [], [⟨1, 0, 5⟩, ⟨2, 0, 5⟩, ⟨3, 0, 4⟩, ⟨4, 0, 3⟩], []⟩

/-- One movie with a single rating whose score 10 lies outside 1–5. -/
def dbOutOfRange : DB :=
  ⟨[⟨0, [], 0, 0⟩], [], [⟨0, 0, 10⟩], []⟩

/-- Twenty-one movies, no ratings, no watch history. -/
def dbTwentyOne : DB :=
  ⟨(List.range 21).map (fun i => ⟨i, [], 0, 0⟩), [], [], []⟩

/-- Two genres sharing a single movie, which user 0 rated 5 (so one
liked movie counted once per genre). -/
def dbMultiGenre : DB :=
  ⟨[⟨0, [0, 1], 0, 0⟩], [0, 1], [⟨0, 0, 5⟩], [⟨0, 0⟩]⟩

/-- A single unwatched movie and no ratings. -/
def dbOneMovie : DB :=
  ⟨[⟨0, [], 0, 0⟩], [], [], []⟩

/-- An entirely empty catalog. -/
def dbNoMovies : DB :=
  ⟨[], [], [], []⟩

/-- Movie id 1, no ratings or watches: popularity score 0. -/
def movieA : MovieRec := ⟨1, [], 0, 0⟩

/-- Movie id 2, no ratings or watches: popularity score 0. -/
def movieB : MovieRec := ⟨2, [], 0, 0⟩

/-! ### Helper lemmas -/

theorem pyRound2_zero : pyRound2 0 = 0 := by
  norm_num [pyRound2, roundHalfEven]

theorem pyRound2_intCast (z : ℤ) : pyRound2 (z : ℚ) = z := by
  have h1 : ((z : ℚ) * 100) = ((100 * z : ℤ) : ℚ) := by push_cast; ring
  rw [pyRound2, roundHalfEven]
  rw [h1, Int.floor_intCast]
  rw [if_pos (by rw [sub_self]; norm_num)]
  push_cast
  ring

theorem numToPick_eq_intDiv (c t : ℕ) :
    numToPick c t = max 1 (Int.toNat ((20 * c : ℤ) / (t : ℤ))) := by
  rcases Nat.eq_zero_or_pos t with ht | ht
  · subst ht
    norm_num [numToPick, pyInt]
  · have h0 : (0 : ℚ) ≤ (c : ℚ) / (t : ℚ) * 20 := by positivity
    have h1 : ((c : ℚ) / (t : ℚ) * 20) = ((20 * c : ℤ) : ℚ) / ((t : ℕ) : ℚ) := by
      push_cast; ring
    rw [numToPick, pyInt, if_pos h0, h1, Rat.floor_intCast_div_natCast]

/-! ### Claim C6 -/

/-- Claim C6: for every pair (average_rating, watch_count) the
popularity score equals `average_rating*0.7 + watch_count*0.3`, and
rounding to 2 decimal places happens exactly once, at output time: the
annotated score itself is the unrounded weighted sum, and both surfaced
forms (REST serializer and GraphQL resolver) are its single rounding.
The last conjunct checks the spec's worked example
`4.25*0.7 + 10*0.3 = 5.975 → 5.98`. -/
theorem claim_C6_popularity_score_rounded_once (avg : ℚ) (wc : ℕ) :
    calc_popularity_score avg wc = avg * (7 / 10) + (wc : ℚ) * (3 / 10)
  ∧ serializedPopularityScore avg wc = pyRound2 (calc_popularity_score avg wc)
  ∧ resolve_popularity_score avg wc = pyRound2 (calc_popularity_score avg wc)
  ∧ serializedPopularityScore (17 / 4) 10 = 299 / 50 := by
  refine ⟨rfl, rfl, rfl, ?_⟩
  norm_num [serializedPopularityScore, calc_popularity_score, pyRound2, roundHalfEven]

/-! ### Claim C8 -/

/-- Claim C8: the effective `trending` window is `days` when
`7 ≤ days ≤ 30` and 30 otherwise, including missing or non-integer
input; in particular 45 ↦ 30, 3 ↦ 30 and 10 ↦ 10. -/
theorem claim_C8_trending_days_clamp (d : ℤ) :
    trendingDays (some d) = (if 7 ≤ d ∧ d ≤ 30 then d else 30)
  ∧ trendingDays none = 30
  ∧ trendingDays (some 45) = 30
  ∧ trendingDays (some 3) = 30
  ∧ trendingDays (some 10) = 10 := by
  refine ⟨?_, rfl, by decide, by decide, by decide⟩
  simp only [trendingDays, Option.getD]
  split_ifs <;> omega

/-! ### Claim C1 -/

/-- Claim C1: after the signal handler runs for a movie, the stored
`average_rating` of that movie equals `round(mean(R), 2)` when the set
`R` of its stored rating scores is non-empty and 0 when it is empty,
and re-running the handler on the resulting state stores the same
value (idempotence). -/
theorem claim_C1_average_rating_maintained (db : DB) (mid : ℕ) (m : MovieRec)
    (h1 : m ∈ (recalculate_movie_average_rating db mid).movies)
    (h2 : m.movieId = mid) :
    m.averageRating =
      (if movieScores db mid = [] then 0
       else pyRound2 (((movieScores db mid).sum : ℚ) / ((movieScores db mid).length : ℚ)))
  ∧ recalculate_movie_average_rating (recalculate_movie_average_rating db mid) mid
      = recalculate_movie_average_rating db mid := by
  constructor
  · simp only [recalculate_movie_average_rating, List.mem_map] at h1
    obtain ⟨a, ha, hfa⟩ := h1
    by_cases hb : a.movieId = mid
    · rw [if_pos (by simpa using hb)] at hfa
      rw [← hfa]
      show recalcAverage db mid = _
      rw [recalcAverage, avgScores]
      split
      · exact pyRound2_zero
      · rfl
    · rw [if_neg (by simpa using hb)] at hfa
      rw [← hfa] at h2
      exact absurd h2 hb
  · simp only [recalculate_movie_average_rating, List.map_map]
    congr 1
    apply List.map_congr_left
    intro a _
    by_cases hb : a.movieId = mid
    · simp [Function.comp, hb]
      rfl
    · simp [Function.comp, hb]

/-- Witness for C1 at the spec's example: one movie rated 5, 5, 4, 3. -/
theorem claim_C1_average_rating_maintained_witness :
    ((⟨0, [], recalcAverage dbFourRatings 0, 0⟩ : MovieRec).averageRating =
      (if movieScores dbFourRatings 0 = [] then 0
       else pyRound2 (((movieScores dbFourRatings 0).sum : ℚ) /
         ((movieScores dbFourRatings 0).length : ℚ))))
  ∧ recalculate_movie_average_rating (recalculate_movie_average_rating dbFourRatings 0) 0
      = recalculate_movie_average_rating dbFourRatings 0 :=
  claim_C1_average_rating_maintained dbFourRatings 0
    ⟨0, [], recalcAverage dbFourRatings 0, 0⟩
    (by simp [recalculate_movie_average_rating, dbFourRatings]) rfl

/-! ### Claim C5 -/

/-- Counterexample to claim C5: with a single stored rating of score 10
for movie 0 (outside 1–5), the signal handler stores average 10 — the
out-of-range record fully determines the stored `average_rating` —
whereas skipping out-of-range records as claimed would store 0. -/
theorem claim_C5_counterexample :
    storedAverage (recalculate_movie_average_rating dbOutOfRange 0) 0 = some 10
  ∧ recalcAverageSkippingOutOfRange dbOutOfRange 0 = 0
  ∧ some (10 : ℚ) ≠ some (0 : ℚ) := by
  have h10 : recalcAverage dbOutOfRange 0 = 10 := by
    norm_num [recalcAverage, movieScores, avgScores, dbOutOfRange, pyRound2, roundHalfEven]
  refine ⟨?_, ?_, by norm_num⟩
  · simp only [storedAverage, recalculate_movie_average_rating, dbOutOfRange]
    simp
    exact h10
  · norm_num [recalcAverageSkippingOutOfRange, movieScores, avgScores, dbOutOfRange,
      pyRound2_zero]

/-- Claim C5, amended: the signal handler does not filter by score
range; the stored average is `round(·, 2)` of the mean over all stored
rating records of the movie, out-of-range records included. -/
theorem claim_C5_amended_no_skipping (db : DB) (mid : ℕ) (m : MovieRec)
    (h1 : m ∈ (recalculate_movie_average_rating db mid).movies)
    (h2 : m.movieId = mid) :
    m.averageRating = pyRound2 (avgScores (movieScores db mid)) := by
  simp only [recalculate_movie_average_rating, List.mem_map] at h1
  obtain ⟨a, ha, hfa⟩ := h1
  by_cases hb : a.movieId = mid
  · rw [if_pos (by simpa using hb)] at hfa
    rw [← hfa]
    rfl
  · rw [if_neg (by simpa using hb)] at hfa
    rw [← hfa] at h2
    exact absurd h2 hb

/-- Witness for the amended C5 at the out-of-range state. -/
theorem claim_C5_amended_no_skipping_witness :
    (⟨0, [], recalcAverage dbOutOfRange 0, 0⟩ : MovieRec).averageRating
      = pyRound2 (avgScores (movieScores dbOutOfRange 0)) :=
  claim_C5_amended_no_skipping dbOutOfRange 0
    ⟨0, [], recalcAverage dbOutOfRange 0, 0⟩
    (by simp [recalculate_movie_average_rating, dbOutOfRange]) rfl

/-! ### Claim C3 -/

/-- Counterexample to claim C3: user 0 liked one movie that belongs to
two genres.  The code divides each genre's liked count by
`liked_movies.count() = 1` and picks `max(1, int(1/1*20)) = 20` per
genre, while the claimed denominator — the sum of `liked_count` over
the genre entries, here 2 — would give `max(1, int(1/2*20)) = 10`. -/
theorem claim_C3_counterexample :
    genrePickPlan dbMultiGenre 0 = [(0, 20), (1, 20)]
  ∧ claimedPickPlan dbMultiGenre 0 = [(0, 10), (1, 10)]
  ∧ genrePickPlan dbMultiGenre 0 ≠ claimedPickPlan dbMultiGenre 0 := by
  have hlg : liked_genres dbMultiGenre (likedMovieIds dbMultiGenre 0) = [⟨0, 1⟩, ⟨1, 1⟩] := by
    decide
  have hlr : (likedRows dbMultiGenre 0).length = 1 := by decide
  have h11 : numToPick 1 1 = 20 := by
    rw [numToPick_eq_intDiv]; decide
  have h12 : numToPick 1 2 = 10 := by
    rw [numToPick_eq_intDiv]; decide
  have hg : genrePickPlan dbMultiGenre 0 = [(0, 20), (1, 20)] := by
    rw [genrePickPlan, hlg, hlr]
    simp [h11]
  have hc : claimedPickPlan dbMultiGenre 0 = [(0, 10), (1, 10)] := by
    rw [claimedPickPlan, hlg]
    simp [h12]
  refine ⟨hg, hc, ?_⟩
  rw [hg, hc]
  decide

/-- Claim C3, amended: the per-genre pick count is
`max(1, floor(liked_count * 20 / total))` where the denominator
`total` is `liked_movies.count()` — the number of the user's
liked-movie rating rows (distinct liked movies) — not the sum of
`liked_count` over the genre entries. -/
theorem claim_C3_amended_pick_counts (db : DB) (u : ℕ) :
    genrePickPlan db u =
      (liked_genres db (likedMovieIds db u)).map
        (fun gc => (gc.genreId,
          max 1 (Int.toNat ((20 * gc.likedCount : ℤ) / ((likedRows db u).length : ℤ))))) := by
  rw [genrePickPlan]
  apply List.map_congr_left
  intro gc _
  rw [numToPick_eq_intDiv]

/-! ### Claim C9 -/

/-- Counterexample to claim C9: two distinct movies with equal
popularity score.  `order_by('-popularity_score')` keeps them in
stored order — the output order follows the input arrangement in both
directions — so their relative order is not determined by their movie
ids.  No id tie-break exists in the source. -/
theorem claim_C9_counterexample :
    orderByPopularityDesc [movieB, movieA] = [movieB, movieA]
  ∧ orderByPopularityDesc [movieA, movieB] = [movieA, movieB]
  ∧ popScore movieA = popScore movieB
  ∧ movieA.movieId ≠ movieB.movieId := by
  have hAB : popGE movieA movieB := by
    norm_num [popGE, popScore, calc_popularity_score, movieA, movieB]
  have hBA : popGE movieB movieA := by
    norm_num [popGE, popScore, calc_popularity_score, movieA, movieB]
  refine ⟨?_, ?_, ?_, by decide⟩
  · show List.insertionSort popGE [movieB, movieA] = [movieB, movieA]
    simp only [List.insertionSort, List.orderedInsert]
    rw [if_pos hBA]
  · show List.insertionSort popGE [movieA, movieB] = [movieA, movieB]
    simp only [List.insertionSort, List.orderedInsert]
    rw [if_pos hAB]
  · norm_num [popScore, calc_popularity_score, movieA, movieB]

/-- Claim C9, amended: on both the fallback path and the personalized
path (and inside each per-genre selection) the output is sorted
descending by popularity score and is a permutation-truncation of its
input; movies with equal score stay in stored order — the movie id is
not a tie-break. -/
theorem claim_C9_amended_sorted_descending (db : DB) (u g n : ℕ) (l : List MovieRec) :
    List.Sorted popGE (recommendedCandidates db u)
  ∧ List.Sorted popGE (top_movies_for_genre db u g n)
  ∧ List.Perm (orderByPopularityDesc l) l
  ∧ List.Sorted popGE (orderByPopularityDesc l) := by
  have hsort : ∀ l2 : List MovieRec, List.Sorted popGE (orderByPopularityDesc l2) :=
    fun l2 => List.sorted_insertionSort popGE l2
  have htake : ∀ (n2 : ℕ) (l2 : List MovieRec),
      List.Sorted popGE l2 → List.Sorted popGE (l2.take n2) :=
    fun n2 l2 h => h.sublist (List.take_sublist n2 l2)
  refine ⟨?_, ?_, List.perm_insertionSort popGE l, hsort l⟩
  · rw [recommendedCandidates]
    split
    · exact hsort _
    · exact htake _ _ (hsort _)
  · exact htake _ _ (hsort _)

/-! ### Claim C2 -/

theorem nodup_map_orderByPopularityDesc (f : MovieRec → ℕ) (l : List MovieRec)
    (h : (l.map f).Nodup) : ((orderByPopularityDesc l).map f).Nodup :=
  (((List.perm_insertionSort popGE l).map f).nodup_iff).mpr h

theorem nodup_map_filter (f : MovieRec → ℕ) (p : MovieRec → Bool) (l : List MovieRec)
    (h : (l.map f).Nodup) : ((l.filter p).map f).Nodup :=
  h.sublist ((List.filter_sublist l).map f)

theorem unwatched_of_mem_personalizedUnionIds (db : DB) (u x : ℕ)
    (hx : x ∈ personalizedUnionIds db u) : watchedB db u x = false := by
  rw [personalizedUnionIds] at hx
  suffices h : ∀ (gcs : List GenreCount) (acc : List ℕ),
      (∀ y ∈ acc, watchedB db u y = false) →
      ∀ y ∈ gcs.foldl (fun a gc => a ++ pickIdsFor db u (likedRows db u).length gc) acc,
        watchedB db u y = false by
    exact h _ [] (by simp) x hx
  intro gcs
  induction gcs with
  | nil => exact fun acc hacc y hy => hacc y hy
  | cons g gs ih =>
    intro acc hacc y hy
    simp only [List.foldl_cons] at hy
    refine ih _ ?_ y hy
    intro z hz
    rcases List.mem_append.mp hz with hz2 | hz2
    · exact hacc z hz2
    · rw [pickIdsFor] at hz2
      obtain ⟨m, hm, rfl⟩ := List.mem_map.mp hz2
      rw [top_movies_for_genre, orderByPopularityDesc] at hm
      have hm2 := List.take_subset _ _ hm
      have hm3 := (List.mem_insertionSort popGE).mp hm2
      have hm4 := (List.mem_filter.mp hm3).2
      simpa using hm4

/-- Counterexample to claim C2: with 21 stored movies, none watched by
user 0 and no liked movies, the fallback path's list is all 21
unwatched movies — the fallback is never truncated to the budget of
20 (only pagination, up to the client-chosen page size of at most 50,
bounds what is returned). -/
theorem claim_C2_counterexample :
    (recommendedCandidates dbTwentyOne 0).length = 21
  ∧ ¬((recommendedCandidates dbTwentyOne 0).length ≤ 20) := by
  have h : recommendedCandidates dbTwentyOne 0 = fallbackList dbTwentyOne 0 := rfl
  have hlen : (fallbackList dbTwentyOne 0).length = 21 := by
    rw [fallbackList, orderByPopularityDesc, List.length_insertionSort]
    decide
  constructor
  · rw [h, hlen]
  · rw [h, hlen]
    omega

/-- Claim C2, amended: the personalized path's list has length at most
the budget of 20; on both paths the list contains each movie id at
most once and only movies without a watch-history entry for the
requesting user; but the fallback path's list is the entire unwatched
catalog ordered by popularity — it is not truncated to the budget. -/
theorem claim_C2_amended_bounds (db : DB) (u : ℕ)
    (hids : (db.movies.map (fun m => m.movieId)).Nodup) :
    (likedRows db u ≠ [] → (recommendedCandidates db u).length ≤ 20)
  ∧ ((recommendedCandidates db u).map (fun m => m.movieId)).Nodup
  ∧ (∀ m ∈ recommendedCandidates db u, watchedB db u m.movieId = false)
  ∧ (likedRows db u = [] →
      List.Perm (recommendedCandidates db u)
        (db.movies.filter (fun m => !watchedB db u m.movieId))) := by
  refine ⟨?_, ?_, ?_, ?_⟩
  · intro hne
    rw [recommendedCandidates, if_neg (by simpa [List.isEmpty_iff] using hne)]
    rw [personalizedList]
    exact List.length_take_le _ _
  · rw [recommendedCandidates]
    split
    · rw [fallbackList]
      exact nodup_map_orderByPopularityDesc _ _ (nodup_map_filter _ _ _ hids)
    · rw [personalizedList]
      refine List.Nodup.sublist ((List.take_sublist _ _).map _) ?_
      exact nodup_map_orderByPopularityDesc _ _ (nodup_map_filter _ _ _ hids)
  · rw [recommendedCandidates]
    split
    · intro m hm
      rw [fallbackList, orderByPopularityDesc] at hm
      have hm2 := (List.mem_filter.mp ((List.mem_insertionSort popGE).mp hm)).2
      simpa using hm2
    · intro m hm
      rw [personalizedList] at hm
      have hm2 := List.take_subset _ _ hm
      rw [orderByPopularityDesc] at hm2
      have hm3 := (List.mem_filter.mp ((List.mem_insertionSort popGE).mp hm2)).2
      have hm4 : m.movieId ∈ personalizedUnionIds db u := by simpa using hm3
      exact unwatched_of_mem_personalizedUnionIds db u m.movieId hm4
  · intro h0
    rw [recommendedCandidates, if_pos (by simp [h0])]
    rw [fallbackList, orderByPopularityDesc]
    exact List.perm_insertionSort popGE _

/-- Witness for the amended C2 at a one-movie catalog. -/
theorem claim_C2_amended_bounds_witness :
    ((recommendedCandidates dbOneMovie 0).map (fun m => m.movieId)).Nodup :=
  (claim_C2_amended_bounds dbOneMovie 0 (by decide)).2.1

/-! ### Claims C4 and C10 — cache behaviour -/

theorem recommendedCall_none_not_bare (db : DB) (u p s t : ℕ) (l : List ℕ) :
    (recommendedCall db u p s t none).1 ≠ RespBody.bare l := by
  show (recommendedMiss db u p s t none).1 ≠ RespBody.bare l
  rw [recommendedMiss]
  cases hpg : paginate p s (recommendedIds db u) <;> simp

theorem recommendedCall_hit (db : DB) (u p s now : ℕ) (e : CacheEntry)
    (h1 : now < e.expiry) (h2 : e.payload ≠ []) :
    recommendedCall db u p s now (some e) = (RespBody.bare e.payload, some e) := by
  simp only [recommendedCall]
  rw [if_pos ⟨h1, h2⟩]

theorem recommendedCall_stale (db : DB) (u p s now : ℕ) (e : CacheEntry)
    (h : ¬(now < e.expiry ∧ e.payload ≠ [])) :
    recommendedCall db u p s now (some e) = recommendedMiss db u p s now (some e) := by
  simp only [recommendedCall]
  rw [if_neg h]

/-- Counterexample to claim C4: one unwatched movie, no mutation
between two calls 60 seconds apart.  The first (miss) call returns the
DRF paginated envelope, the second (hit) call returns the bare cached
list — the outputs are not identical. -/
theorem claim_C4_counterexample :
    (recommendedCall dbOneMovie 0 1 10 0 none).1 = RespBody.paged 1 [0]
  ∧ (recommendedCall dbOneMovie 0 1 10 60 (recommendedCall dbOneMovie 0 1 10 0 none).2).1
      = RespBody.bare [0]
  ∧ RespBody.bare [0] ≠ RespBody.paged 1 [0] :=
  ⟨by decide, by decide, by decide⟩

/-- Claim C4, amended: with no intervening mutation and the second
call within the 600-second ttl of the first, the second call carries
the same movie list; when that list is non-empty it is served from the
cache, as the bare cached payload without the pagination envelope
(so the two response bodies differ in shape, not in content).  A
rating/watch mutation by the user deletes the entry, and a call on the
deleted entry always recomputes — it never returns the bare cached
form. -/
theorem claim_C4_amended_cache_roundtrip (db : DB) (u p s t1 t2 : ℕ)
    (httl : t2 < t1 + 600) :
    resultsOf (recommendedCall db u p s t2 (recommendedCall db u p s t1 none).2).1
      = resultsOf (recommendedCall db u p s t1 none).1
  ∧ (resultsOf (recommendedCall db u p s t1 none).1 ≠ [] →
      recommendedCall db u p s t2 (recommendedCall db u p s t1 none).2
        = (RespBody.bare (resultsOf (recommendedCall db u p s t1 none).1),
           (recommendedCall db u p s t1 none).2))
  ∧ invalidate_user_recommendation_cache (recommendedCall db u p s t1 none).2 = none
  ∧ (∀ (dbX : DB) (l : List ℕ),
      (recommendedCall dbX u p s t2
        (invalidate_user_recommendation_cache (recommendedCall db u p s t1 none).2)).1
        ≠ RespBody.bare l) := by
  cases hpg : paginate p s (recommendedIds db u) with
  | none =>
    have h1 : recommendedCall db u p s t1 none = (RespBody.errorNotFound, none) := by
      show recommendedMiss db u p s t1 none = _
      rw [recommendedMiss, hpg]
    have h2 : recommendedCall db u p s t2 none = (RespBody.errorNotFound, none) := by
      show recommendedMiss db u p s t2 none = _
      rw [recommendedMiss, hpg]
    rw [h1]
    refine ⟨by rw [h2], ?_, rfl, ?_⟩
    · intro habs
      simp [resultsOf] at habs
    · intro dbX l
      exact recommendedCall_none_not_bare dbX u p s t2 l
  | some payload =>
    have h1 : recommendedCall db u p s t1 none
        = (RespBody.paged (recommendedIds db u).length payload, some ⟨payload, t1 + 600⟩) := by
      show recommendedMiss db u p s t1 none = _
      rw [recommendedMiss, hpg]
    rw [h1]
    by_cases hpay : payload = []
    · subst hpay
      have h2 : recommendedCall db u p s t2 (some ⟨[], t1 + 600⟩)
          = (RespBody.paged (recommendedIds db u).length [], some ⟨[], t2 + 600⟩) := by
        rw [recommendedCall_stale db u p s t2 ⟨[], t1 + 600⟩ (by simp)]
        rw [recommendedMiss, hpg]
      refine ⟨by rw [h2], ?_, rfl, ?_⟩
      · intro habs
        simp [resultsOf] at habs
      · intro dbX l
        exact recommendedCall_none_not_bare dbX u p s t2 l
    · have h2 : recommendedCall db u p s t2 (some ⟨payload, t1 + 600⟩)
          = (RespBody.bare payload, some ⟨payload, t1 + 600⟩) :=
        recommendedCall_hit db u p s t2 ⟨payload, t1 + 600⟩ httl hpay
      refine ⟨by rw [h2]; rfl, fun _ => by rw [h2]; rfl, rfl, ?_⟩
      intro dbX l
      exact recommendedCall_none_not_bare dbX u p s t2 l

/-- Witness for the amended C4: the second call, 60 seconds after the
first, returns the bare cached payload. -/
theorem claim_C4_amended_cache_roundtrip_witness :
    recommendedCall dbOneMovie 0 1 10 60 (recommendedCall dbOneMovie 0 1 10 0 none).2
      = (RespBody.bare (resultsOf (recommendedCall dbOneMovie 0 1 10 0 none).1),
         (recommendedCall dbOneMovie 0 1 10 0 none).2) :=
  (claim_C4_amended_cache_roundtrip dbOneMovie 0 1 10 0 60 (by omega)).2.1 (by decide)

/-- Counterexample to claim C10: with an empty catalog, the call for
page 1 populates the cache with the empty payload, which the hit test
(`if cached_data:`) treats as a miss; the later call for page 2 then
recomputes and raises `NotFound` instead of returning the cached
page-1 payload. -/
theorem claim_C10_counterexample :
    (recommendedCall dbNoMovies 0 1 10 0 none).2 = some ⟨[], 600⟩
  ∧ (recommendedCall dbNoMovies 0 2 10 60 (recommendedCall dbNoMovies 0 1 10 0 none).2).1
      = RespBody.errorNotFound
  ∧ RespBody.errorNotFound
      ≠ RespBody.bare (resultsOf (recommendedCall dbNoMovies 0 1 10 0 none).1) :=
  ⟨by decide, by decide, by decide⟩

/-- Claim C10, amended: the cache key is the user id alone, so after a
call for page `p` caches a non-empty payload, any call within the ttl
and without an intervening mutation by that user — for any page `q`
and any page size — returns that page-`p` payload (as the bare cached
list). -/
theorem claim_C10_amended_page_ignored (db : DB) (u p q s s2 t1 t2 : ℕ)
    (httl : t2 < t1 + 600)
    (hne : resultsOf (recommendedCall db u p s t1 none).1 ≠ []) :
    recommendedCall db u q s2 t2 (recommendedCall db u p s t1 none).2
      = (RespBody.bare (resultsOf (recommendedCall db u p s t1 none).1),
         (recommendedCall db u p s t1 none).2) := by
  cases hpg : paginate p s (recommendedIds db u) with
  | none =>
    have h1 : recommendedCall db u p s t1 none = (RespBody.errorNotFound, none) := by
      show recommendedMiss db u p s t1 none = _
      rw [recommendedMiss, hpg]
    rw [h1] at hne
    simp [resultsOf] at hne
  | some payload =>
    have h1 : recommendedCall db u p s t1 none
        = (RespBody.paged (recommendedIds db u).length payload, some ⟨payload, t1 + 600⟩) := by
      show recommendedMiss db u p s t1 none = _
      rw [recommendedMiss, hpg]
    rw [h1] at hne ⊢
    have hpay : payload ≠ [] := by simpa [resultsOf] using hne
    exact recommendedCall_hit db u q s2 t2 ⟨payload, t1 + 600⟩ httl hpay

/-- Witness for the amended C10: a page-2, page-size-7 call served the
cached page-1 payload. -/
theorem claim_C10_amended_page_ignored_witness :
    recommendedCall dbOneMovie 0 2 7 60 (recommendedCall dbOneMovie 0 1 10 0 none).2
      = (RespBody.bare (resultsOf (recommendedCall dbOneMovie 0 1 10 0 none).1),
         (recommendedCall dbOneMovie 0 1 10 0 none).2) :=
  claim_C10_amended_page_ignored dbOneMovie 0 1 2 10 7 0 60 (by omega) (by decide)

/-! ### Claim C7 -/

theorem hasRating_iff (s : LibState) (u m : ℕ) :
    hasRating s u m = true ↔ ∃ r ∈ s.ratings, r.userId = u ∧ r.movieId = m := by
  simp [hasRating, List.any_eq_true]

theorem hasWatch_iff (s : LibState) (u m : ℕ) :
    hasWatch s u m = true ↔ ∃ w ∈ s.watches, w.userId = u ∧ w.movieId = m := by
  simp [hasWatch, List.any_eq_true]

theorem mem_eraseP_of_pred_false {α : Type} (p : α → Bool) (l : List α) (a : α)
    (hmem : a ∈ l) (hpa : p a = false) : a ∈ l.eraseP p := by
  induction l with
  | nil => cases hmem
  | cons b l ih =>
    rcases List.mem_cons.mp hmem with rfl | hmem2
    · simp only [List.eraseP_cons, hpa, cond_false]
      exact List.mem_cons_self _ _
    · by_cases hpb : p b = true
      · simp only [List.eraseP_cons, hpb, cond_true]
        exact hmem2
      · have hpb2 : p b = false := by simpa using hpb
        simp only [List.eraseP_cons, hpb2, cond_false]
        exact List.mem_cons_of_mem _ (ih hmem2)

theorem any_eraseP_key_false (u m : ℕ) :
    ∀ l : List RatingRec,
      l.Pairwise (fun a b => ¬(a.userId = b.userId ∧ a.movieId = b.movieId)) →
      (l.eraseP (fun r => r.userId == u && r.movieId == m)).any
        (fun r => r.userId == u && r.movieId == m) = false := by
  intro l
  induction l with
  | nil => intro _; rfl
  | cons a l ih =>
    intro hp
    rcases List.pairwise_cons.mp hp with ⟨ha, hl⟩
    by_cases hc : (a.userId == u && a.movieId == m) = true
    · simp only [List.eraseP_cons, hc, cond_true]
      have hau : a.userId = u ∧ a.movieId = m := by simpa using hc
      simp only [List.any_eq_false]
      intro b hb hbp
      have hbu : b.userId = u ∧ b.movieId = m := by simpa using hbp
      exact ha b hb ⟨hau.1.trans hbu.1.symm, hau.2.trans hbu.2.symm⟩
    · have hc2 : (a.userId == u && a.movieId == m) = false := by simpa using hc
      simp only [List.eraseP_cons, hc2, cond_false, List.any_cons, ih hl, Bool.or_false]

theorem inv_preserved (s : LibState) (e : LibEvent)
    (h1 : ratedImpliesWatched s) (h2 : ratingKeysOnce s) :
    ratedImpliesWatched (applyEvent s e).1 ∧ ratingKeysOnce (applyEvent s e).1 := by
  cases e with
  | rateE u m sc =>
    simp only [applyEvent, rateOp]
    by_cases hr : hasRating s u m = true
    · rw [if_pos hr]
      exact ⟨h1, h2⟩
    · rw [if_neg hr]
      by_cases hv : (!validScoreB sc) = true
      · rw [if_pos hv]
        exact ⟨h1, h2⟩
      · rw [if_neg hv]
        have hkeys : ratingKeysOnce ⟨⟨u, m, sc⟩ :: s.ratings, s.watches⟩ := by
          rw [ratingKeysOnce, List.pairwise_cons]
          refine ⟨?_, h2⟩
          intro b hb hc
          apply hr
          exact (hasRating_iff s u m).mpr ⟨b, hb, hc.1.symm, hc.2.symm⟩
        by_cases hw : hasWatch ⟨⟨u, m, sc⟩ :: s.ratings, s.watches⟩ u m = true
        · rw [if_pos hw]
          refine ⟨?_, hkeys⟩
          intro r hrr
          rcases List.mem_cons.mp hrr with rfl | hold
          · exact hw
          · exact h1 r hold
        · rw [if_neg hw]
          constructor
          · intro r hrr
            rcases List.mem_cons.mp hrr with rfl | hold
            · apply (hasWatch_iff _ _ _).mpr
              exact ⟨⟨u, m⟩, List.mem_cons_self _ _, rfl, rfl⟩
            · have hold2 := (hasWatch_iff s r.userId r.movieId).mp (h1 r hold)
              obtain ⟨w, hwmem, hwu, hwm⟩ := hold2
              exact (hasWatch_iff _ _ _).mpr ⟨w, List.mem_cons_of_mem _ hwmem, hwu, hwm⟩
          · exact hkeys
  | watchE u m =>
    simp only [applyEvent, watchOp]
    by_cases hw : hasWatch s u m = true
    · rw [if_pos hw]
      exact ⟨h1, h2⟩
    · rw [if_neg hw]
      refine ⟨?_, h2⟩
      intro r hrr
      obtain ⟨w, hwmem, hwu, hwm⟩ := (hasWatch_iff s r.userId r.movieId).mp (h1 r hrr)
      exact (hasWatch_iff _ _ _).mpr ⟨w, List.mem_cons_of_mem _ hwmem, hwu, hwm⟩
  | unwatchE u m =>
    simp only [applyEvent, unwatchOp]
    by_cases hw : (!hasWatch s u m) = true
    · rw [if_pos hw]
      exact ⟨h1, h2⟩
    · rw [if_neg hw]
      by_cases hr : hasRating s u m = true
      · rw [if_pos hr]
        exact ⟨h1, h2⟩
      · rw [if_neg hr]
        refine ⟨?_, h2⟩
        intro r hrr
        obtain ⟨w, hwmem, hwu, hwm⟩ := (hasWatch_iff s r.userId r.movieId).mp (h1 r hrr)
        have hpw : ¬((fun w2 => w2.userId == u && w2.movieId == m) w = true) := by
          intro hpw
          have hw2 : w.userId = u ∧ w.movieId = m := by simpa using hpw
          exact hr ((hasRating_iff s u m).mpr
            ⟨r, hrr, hwu.symm.trans hw2.1, hwm.symm.trans hw2.2⟩)
        refine (hasWatch_iff _ _ _).mpr ⟨w, ?_, hwu, hwm⟩
        exact mem_eraseP_of_pred_false (fun w2 => w2.userId == u && w2.movieId == m)
          s.watches w hwmem (by simpa using hpw)
  | destroyE u m =>
    simp only [applyEvent, destroyRatingOp]
    by_cases hr : hasRating s u m = true
    · rw [if_pos hr]
      constructor
      · intro r hrr
        exact h1 r (List.mem_of_mem_eraseP hrr)
      · exact List.Pairwise.sublist (List.eraseP_sublist _) h2
    · rw [if_neg hr]
      exact ⟨h1, h2⟩
  | updateE u m sc =>
    simp only [applyEvent, updateRatingOp]
    by_cases hc : (hasRating s u m && validScoreB sc) = true
    · rw [if_pos hc]
      constructor
      · intro r' hr'
        obtain ⟨r, hrmem, hfr⟩ := List.mem_map.mp hr'
        rw [← hfr]
        by_cases hk : (r.userId == u && r.movieId == m) = true
        · rw [if_pos hk]
          exact h1 r hrmem
        · rw [if_neg hk]
          exact h1 r hrmem
      · rw [ratingKeysOnce, List.pairwise_map]
        refine List.Pairwise.imp ?_ h2
        intro a b hab hcon
        apply hab
        constructor
        · have ha : (if a.userId == u && a.movieId == m then
              (⟨a.userId, a.movieId, sc⟩ : RatingRec) else a).userId = a.userId := by
            split <;> rfl
          have hb : (if b.userId == u && b.movieId == m then
              (⟨b.userId, b.movieId, sc⟩ : RatingRec) else b).userId = b.userId := by
            split <;> rfl
          rw [← ha, ← hb]
          exact hcon.1
        · have ha : (if a.userId == u && a.movieId == m then
              (⟨a.userId, a.movieId, sc⟩ : RatingRec) else a).movieId = a.movieId := by
            split <;> rfl
          have hb : (if b.userId == u && b.movieId == m then
              (⟨b.userId, b.movieId, sc⟩ : RatingRec) else b).movieId = b.movieId := by
            split <;> rfl
          rw [← ha, ← hb]
          exact hcon.2
    · rw [if_neg hc]
      exact ⟨h1, h2⟩

/-- Claim C7: every reachable state satisfies "rated ⟹ watched":
each rating row has a watch-history row for the same (user, movie).
Moreover (i) a successful `rate` leaves the movie watched (creating
the watch entry when absent), (ii) `unwatch` is rejected with the
state unchanged while a rating for the same (user, movie) exists, and
(iii) deleting the rating first and then the watch entry succeeds. -/
theorem claim_C7_rated_implies_watched (s : LibState) (hs : Reachable s) :
    (∀ r ∈ s.ratings, hasWatch s r.userId r.movieId = true)
  ∧ (∀ (u m : ℕ) (sc : ℤ), (rateOp s u m sc).2 = true →
      hasWatch (rateOp s u m sc).1 u m = true)
  ∧ (∀ u m : ℕ, hasRating s u m = true → unwatchOp s u m = (s, false))
  ∧ (∀ u m : ℕ, hasWatch s u m = true → hasRating s u m = true →
      (destroyRatingOp s u m).2 = true
      ∧ (unwatchOp (destroyRatingOp s u m).1 u m).2 = true) := by
  have hinv : ratedImpliesWatched s ∧ ratingKeysOnce s := by
    induction hs with
    | init =>
      constructor
      · intro r hr
        cases hr
      · exact List.Pairwise.nil
    | step s2 e _ ih => exact inv_preserved s2 e ih.1 ih.2
  refine ⟨hinv.1, ?_, ?_, ?_⟩
  · intro u m sc hsucc
    rw [rateOp] at hsucc ⊢
    by_cases hr : hasRating s u m = true
    · rw [if_pos hr] at hsucc
      simp at hsucc
    · rw [if_neg hr] at hsucc ⊢
      by_cases hv : (!validScoreB sc) = true
      · rw [if_pos hv] at hsucc
        simp at hsucc
      · rw [if_neg hv] at hsucc ⊢
        by_cases hw : hasWatch ⟨⟨u, m, sc⟩ :: s.ratings, s.watches⟩ u m = true
        · rw [if_pos hw]
          exact hw
        · rw [if_neg hw]
          apply (hasWatch_iff _ _ _).mpr
          exact ⟨⟨u, m⟩, List.mem_cons_self _ _, rfl, rfl⟩
  · intro u m hr
    cases hhw : hasWatch s u m <;> simp [unwatchOp, hhw, hr]
  · intro u m hw hr
    have hdel : destroyRatingOp s u m
        = (⟨s.ratings.eraseP (fun r => r.userId == u && r.movieId == m), s.watches⟩, true) := by
      rw [destroyRatingOp, if_pos hr]
    rw [hdel]
    refine ⟨rfl, ?_⟩
    have hnr : hasRating
        ⟨s.ratings.eraseP (fun r => r.userId == u && r.movieId == m), s.watches⟩ u m
        = false := any_eraseP_key_false u m s.ratings hinv.2
    have hw2 : hasWatch
        ⟨s.ratings.eraseP (fun r => r.userId == u && r.movieId == m), s.watches⟩ u m
        = true := hw
    simp [unwatchOp, hw2, hnr]

/-- Witness for C7: in the reachable state produced by user 0 rating
movie 0 with score 5 from the empty state, `unwatch` is rejected with
the state unchanged. -/
theorem claim_C7_rated_implies_watched_witness :
    unwatchOp ((applyEvent ⟨[], []⟩ (LibEvent.rateE 0 0 5)).1) 0 0
      = ((applyEvent ⟨[], []⟩ (LibEvent.rateE 0 0 5)).1, false) :=
  (claim_C7_rated_implies_watched ((applyEvent ⟨[], []⟩ (LibEvent.rateE 0 0 5)).1)
    (Reachable.step ⟨[], []⟩ (LibEvent.rateE 0 0 5) Reachable.init)).2.2.1 0 0 (by decide)
